import Mathlib

/-!
Shallow embedding of the membership, attendance and balance-reset logic of the
Zuhr-Star backend (Express/Mongoose).  Collections are modelled as lists of
documents, ids as natural numbers, timestamps as integers (milliseconds since
the Unix epoch).  Each definition mirrors one JavaScript function and keeps its
name where Lean allows it.
-/

namespace ZuhrStar

/-- Membership status on a student's group entry
(student.model.js STUDENT_GROUP_STATUSES: active, paused, completed, left). -/
inductive MStatus
  | active
  | paused
  | completed
  | left
deriving DecidableEq, Repr

/-- Group lifecycle status (group.controller.js GROUP_STATUSES). -/
inductive GStatus
  | planned
  | active
  | paused
  | completed
  | archived
deriving DecidableEq, Repr

/-- Attendance status (group.controller.js ATTENDANCE_STATUSES). -/
inductive AStatus
  | present
  | absent
  | late
  | excused
deriving DecidableEq, Repr

/-- One entry of a student's `groups` array (studentGroupSchema). -/
structure Membership where
  group : Nat
  status : MStatus
  joinedAt : Int
  note : Option String
deriving DecidableEq, Repr

/-- One entry of a group's `attendance` array (group.model.js). -/
structure AttendanceEntry where
  student : Nat
  date : Int
  status : AStatus
  note : Option String
  markedBy : Option Nat
deriving DecidableEq, Repr

/-- A Student document (student.model.js), restricted to the fields the
verified operations read or write. -/
structure Student where
  id : Nat
  fullname : String
  studentPhone : String
  parentPhone : String
  password : String
  groups : List Membership
  groupAttached : Bool
  balance : Int
  balanceResetAt : Option Int
  coinBalance : Int
deriving DecidableEq, Repr

/-- A Group document (group.model.js), restricted to the fields the verified
operations read or write. -/
structure Group where
  id : Nat
  status : GStatus
  maxStudents : Nat
  students : List Nat
  attendance : List AttendanceEntry
deriving DecidableEq, Repr

/-- The two Mongo collections the engine touches. -/
structure DB where
  students : List Student
  groups : List Group
deriving DecidableEq, Repr

/-- `Student.findById` on the modelled collection. -/
def findStudent (db : DB) (studentId : Nat) : Option Student :=
  db.students.find? (fun s => s.id == studentId)

/-- `Group.findById` on the modelled collection. -/
def findGroup (db : DB) (groupId : Nat) : Option Group :=
  db.groups.find? (fun g => g.id == groupId)

/-- `student.save()` persists a document back into the collection: every stored
document with the same id is replaced. -/
def putStudent (db : DB) (s : Student) : DB :=
  { db with students := db.students.map (fun t => if t.id == s.id then s else t) }

/-- The `studentSchema.pre('validate')` hook (student.model.js:222): on every
save, `groupAttached` is recomputed as `this.groups.some(g => g.status === 'active')`. -/
def recomputeGroupAttached (s : Student) : Student :=
  { s with groupAttached := s.groups.any (fun m => m.status == MStatus.active) }

/-- The consistency property of claim C2: `groupAttached` equals
"some membership is active". -/
def studentConsistent (s : Student) : Prop :=
  s.groupAttached = s.groups.any (fun m => m.status == MStatus.active)

/-- C2's invariant over the whole student collection. -/
def dbConsistent (db : DB) : Prop :=
  ∀ s ∈ db.students, studentConsistent s

instance (s : Student) : Decidable (studentConsistent s) :=
  inferInstanceAs (Decidable (_ = _))

instance (db : DB) : Decidable (dbConsistent db) :=
  inferInstanceAs (Decidable (∀ s ∈ db.students, studentConsistent s))

/-! ### BalanceResetScheduler (student-balance-reset.service.js) -/

/-- `THIRTY_DAYS_MS` (student-balance-reset.service.js:3). -/
def THIRTY_DAYS_MS : Int := 30 * 24 * 60 * 60 * 1000

/-- `DEFAULT_MIN_GAP_MS` (student-balance-reset.service.js:5). -/
def DEFAULT_MIN_GAP_MS : Int := 5 * 60 * 1000

/-- `minGapMs = Math.max(Number(env) || DEFAULT_MIN_GAP_MS, 10 * 1000)`.
`none` models an unset / non-numeric / zero environment value (all of which
fall back to the default through `||`). -/
def minGapMs (cfg : Option Int) : Int :=
  max (cfg.getD DEFAULT_MIN_GAP_MS) (10 * 1000)

/-- The module-level scheduler state: `isResetRunning` and `lastResetRunAt`. -/
structure SchedState where
  running : Bool
  lastRunAt : Int
deriving DecidableEq, Repr

/-- Result value of `resetStudentBalancesIfNeeded`. -/
inductive SweepResult
  | skippedThrottled
  | skippedInProgress
  | ran (matched : Nat)
  | errored
deriving DecidableEq, Repr

/-- The `updateMany` filter: `balanceResetAt` absent, or `$lte` `now - THIRTY_DAYS_MS`. -/
def studentDue (now : Int) (s : Student) : Bool :=
  match s.balanceResetAt with
  | none => true
  | some t => decide (t ≤ now - THIRTY_DAYS_MS)

/-- The `$set` applied by the sweep to one matched student:
`balance = 0`, `balanceResetAt = resetAt` (= `new Date(now)`). -/
def sweepStudent (now : Int) (s : Student) : Student :=
  if studentDue now s then { s with balance := 0, balanceResetAt := some now } else s

/-- `resetStudentBalancesIfNeeded` (student-balance-reset.service.js:23).
`updateFails` models the `Student.updateMany` call throwing; the `finally`
block clears `running` on both paths.  Returns the result value together with
the scheduler state and student collection after the call. -/
def resetStudentBalancesIfNeeded (force : Bool) (now : Int) (cfg : Option Int)
    (updateFails : Bool) (st : SchedState) (students : List Student) :
    SweepResult × SchedState × List Student :=
  if force = false ∧ now - st.lastRunAt < minGapMs cfg then
    (SweepResult.skippedThrottled, st, students)
  else if st.running then
    (SweepResult.skippedInProgress, st, students)
  else if updateFails then
    (SweepResult.errored, { running := false, lastRunAt := now }, students)
  else
    (SweepResult.ran (students.filter (studentDue now)).length,
      { running := false, lastRunAt := now },
      students.map (sweepStudent now))

/-! ### CapacityGuard and membership operations (group.controller.js) -/

/-- `countActiveStudentsForGroup` (group.controller.js:229): the number of
Student documents holding an `active` membership of `groupId`, optionally
excluding one student id (`_id: { $ne: excludeStudentId }`). -/
def countActiveStudentsForGroup (db : DB) (groupId : Nat)
    (excludeStudentId : Option Nat) : Nat :=
  (db.students.filter (fun s =>
    (match excludeStudentId with
      | some ex => s.id != ex
      | none => true) &&
    s.groups.any (fun m => m.group == groupId && m.status == MStatus.active))).length

/-- `ensureStudentInGroupList` (group.controller.js:261): `$setUnion` adds the
student id to the group's `students` mirror when absent. -/
def ensureStudentInGroupList (db : DB) (groupId studentId : Nat) : DB :=
  { db with groups := db.groups.map (fun g =>
      if g.id == groupId then
        { g with students :=
            if g.students.contains studentId then g.students
            else g.students ++ [studentId] }
      else g) }

/-- `removeStudentFromGroupList` (group.controller.js:284): `$filter` removes
the student id from the group's `students` mirror. -/
def removeStudentFromGroupList (db : DB) (groupId studentId : Nat) : DB :=
  { db with groups := db.groups.map (fun g =>
      if g.id == groupId then
        { g with students := g.students.filter (fun x => x != studentId) }
      else g) }

/-- `student.groups[membershipIndex] = nextMembership`: replace the first
membership whose `group` equals `groupId` (the index `findIndex` returned). -/
def replaceFirstMembership (groupId : Nat) (nm : Membership) :
    List Membership → List Membership
  | [] => []
  | m :: rest =>
    if m.group == groupId then nm :: rest
    else m :: replaceFirstMembership groupId nm rest

/-- Outcome of `attachStudentToGroup`.  Error constructors carry no database:
the controller returns before writing anything on those paths. -/
inductive AttachResult
  | groupNotFound
  | studentNotFound
  | closedGroup
  | capacityFull
  | ok (created : Bool) (db : DB)
deriving DecidableEq, Repr

/-- `attachStudentToGroup` (group.controller.js:776).  `reqStatus`, `reqJoinedAt`
and `reqNote` are the already-parsed request body fields (`none` = absent);
id-format validation and the bad-enum 400 happen at parsing and are outside
this embedding.  `now` is `new Date()`. -/
def attachStudentToGroup (db : DB) (groupId studentId : Nat)
    (reqStatus : Option MStatus) (reqJoinedAt : Option Int)
    (reqNote : Option String) (now : Int) : AttachResult :=
  match findGroup db groupId, findStudent db studentId with
  | none, _ => AttachResult.groupNotFound
  | some _, none => AttachResult.studentNotFound
  | some group, some student =>
    let existingMembership := student.groups.find? (fun m => m.group == groupId)
    let status := reqStatus.getD
      ((existingMembership.map (fun m => m.status)).getD MStatus.active)
    let closed := group.status == GStatus.completed || group.status == GStatus.archived
    let isActivatingNewSeat :=
      match existingMembership with
      | none => true
      | some m => m.status != MStatus.active
    if status == MStatus.active && closed then
      AttachResult.closedGroup
    else if status == MStatus.active && isActivatingNewSeat &&
        decide (group.maxStudents ≤
          countActiveStudentsForGroup db groupId (some studentId)) then
      AttachResult.capacityFull
    else
      let nextMembership : Membership :=
        { group := groupId
          status := status
          joinedAt := reqJoinedAt.getD
            ((existingMembership.map (fun m => m.joinedAt)).getD now)
          note :=
            match reqNote with
            | some n => some n
            | none => existingMembership.bind (fun m => m.note) }
      let newGroups :=
        match existingMembership with
        | none => student.groups ++ [nextMembership]
        | some _ => replaceFirstMembership groupId nextMembership student.groups
      let student1 := recomputeGroupAttached { student with groups := newGroups }
      let db1 := putStudent db student1
      let db2 := ensureStudentInGroupList db1 groupId studentId
      AttachResult.ok existingMembership.isNone db2

/-- Outcome of `detachStudentFromGroup`. -/
inductive DetachResult
  | groupNotFound
  | studentNotFound
  | notAttached
  | ok (db : DB)
deriving DecidableEq, Repr

/-- `detachStudentFromGroup` (group.controller.js:893). -/
def detachStudentFromGroup (db : DB) (groupId studentId : Nat) : DetachResult :=
  match findGroup db groupId, findStudent db studentId with
  | none, _ => DetachResult.groupNotFound
  | some _, none => DetachResult.studentNotFound
  | some _, some student =>
    let newGroups := student.groups.filter (fun m => m.group != groupId)
    if newGroups.length == student.groups.length then
      DetachResult.notAttached
    else
      let student1 := recomputeGroupAttached { student with groups := newGroups }
      DetachResult.ok (removeStudentFromGroupList (putStudent db student1) groupId studentId)

/-- Outcome of `deleteGroup`. -/
inductive DeleteGroupResult
  | groupNotFound
  | ok (db : DB)
deriving DecidableEq, Repr

/-- `deleteGroup` (group.controller.js:953): delete the group document, `$pull`
the membership rows of every affected student, then recompute `groupAttached`
with the aggregation pipeline
`$gt [$size ($filter groups status == active), 0]`. -/
def deleteGroup (db : DB) (groupId : Nat) : DeleteGroupResult :=
  match findGroup db groupId with
  | none => DeleteGroupResult.groupNotFound
  | some _ =>
    let remainingGroups := db.groups.filter (fun g => g.id != groupId)
    let students1 := db.students.map (fun s =>
      if s.groups.any (fun m => m.group == groupId) then
        let pulled := s.groups.filter (fun m => m.group != groupId)
        { s with
            groups := pulled
            groupAttached :=
              decide (0 < (pulled.filter (fun m => m.status == MStatus.active)).length) }
      else s)
    DeleteGroupResult.ok { students := students1, groups := remainingGroups }

/-! ### Student controller (student.controller.js) -/

/-- `parseGroupIds` (student.controller.js:12), after JSON / ObjectId-format
handling: the ids are already numbers here, so only the final duplicate check
remains: `uniqueIds.length !== normalizedIds.length` fails the parse. -/
def parseGroupIds (ids : List Nat) : Option (List Nat) :=
  let uniqueIds := ids.dedup
  if uniqueIds.length == ids.length then some uniqueIds else none

/-- `toStudentGroupMemberships` (student.controller.js:47): every desired group
becomes an `active` membership; `joinedAt` comes from the schema default
`Date.now`, `note` is absent. -/
def toStudentGroupMemberships (groupIds : List Nat) (now : Int) : List Membership :=
  groupIds.map (fun groupId =>
    { group := groupId, status := MStatus.active, joinedAt := now, note := none })

/-- `syncGroupStudentLinks` (student.controller.js:72): reconcile the `students`
mirror of every group in `next − previous` (add if absent) and
`previous − next` (remove). -/
def syncGroupStudentLinks (db : DB) (studentId : Nat)
    (previousGroupIds nextGroupIds : List Nat) : DB :=
  let groupsToAdd := nextGroupIds.dedup.filter (fun g => !previousGroupIds.contains g)
  let groupsToRemove := previousGroupIds.dedup.filter (fun g => !nextGroupIds.contains g)
  { db with groups := db.groups.map (fun g =>
      if groupsToAdd.contains g.id then
        { g with students :=
            if g.students.contains studentId then g.students
            else g.students ++ [studentId] }
      else if groupsToRemove.contains g.id then
        { g with students := g.students.filter (fun x => x != studentId) }
      else g) }

/-- `countActiveMembershipsByGroupIds` (student.controller.js:135): the
`$unwind` / `$match` / `$group` aggregate counts, per group, the active
membership rows of students other than `excludeStudentId`. -/
def countActiveMembershipsForGroup (db : DB) (groupId : Nat)
    (excludeStudentId : Option Nat) : Nat :=
  ((db.students.filter (fun s =>
      match excludeStudentId with
      | some ex => s.id != ex
      | none => true)).map (fun s =>
    (s.groups.filter (fun m => m.group == groupId && m.status == MStatus.active)).length)).sum

/-- The three failure shapes `validateGroupAssignments` can return; the
constructor arguments are what the JS message interpolates. -/
inductive GroupAssignError
  | groupsNotFound (missing : List Nat)
  | closedGroup
  | capacityFull (groupId : Nat)
deriving DecidableEq, Repr

/-- The `statusCode` field `validateGroupAssignments` puts on each failure
(student.controller.js:194, 206, 221). -/
def statusCodeOf : GroupAssignError → Nat
  | GroupAssignError.groupsNotFound _ => 400
  | GroupAssignError.closedGroup => 400
  | GroupAssignError.capacityFull _ => 409

/-- `validateGroupAssignments` (student.controller.js:183): existence check,
then the completed/archived policy, then the capacity comparison. -/
def validateGroupAssignments (db : DB) (groupIds : List Nat)
    (excludeStudentId : Option Nat) : Option GroupAssignError :=
  if groupIds.length == 0 then none
  else
    let groupDocs := groupIds.filterMap (fun gid => findGroup db gid)
    if groupDocs.length != groupIds.length then
      let found := groupDocs.map (fun g => g.id)
      some (GroupAssignError.groupsNotFound
        (groupIds.filter (fun gid => !found.contains gid)))
    else
      let activeGroupIds := groupIds.dedup
      if activeGroupIds.any (fun gid =>
          match findGroup db gid with
          | some g => g.status == GStatus.completed || g.status == GStatus.archived
          | none => false) then
        some GroupAssignError.closedGroup
      else
        match activeGroupIds.find? (fun gid =>
          match findGroup db gid with
          | some g =>
            decide (g.maxStudents ≤
              countActiveMembershipsForGroup db gid excludeStudentId)
          | none => false) with
        | some gid => some (GroupAssignError.capacityFull gid)
        | none => none

/-- Outcome of `updateStudent`, restricted to the request fields this
development verifies (`coinBalance` and `groups`). -/
inductive UpdateOutcome
  | invalidCoinBalance
  | invalidGroupsPayload
  | groupAssign (e : GroupAssignError)
  | studentNotFound
  | ok (db : DB)
deriving DecidableEq, Repr

/-- The write phase of `updateStudent`: `Object.assign(student, updatePayload)`,
`student.save()` (running the groupAttached hook), then
`syncGroupStudentLinks` when groups changed. -/
def applyStudentUpdate (db : DB) (studentId : Nat) (coin : Option Int)
    (groupIds : Option (List Nat)) (now : Int) : UpdateOutcome :=
  match findStudent db studentId with
  | none => UpdateOutcome.studentNotFound
  | some student =>
    let s1 := { student with coinBalance := coin.getD student.coinBalance }
    let s2 :=
      match groupIds with
      | some gids => { s1 with groups := toStudentGroupMemberships gids now }
      | none => s1
    let s3 := recomputeGroupAttached s2
    let db1 := putStudent db s3
    let db2 :=
      match groupIds with
      | some _ =>
        syncGroupStudentLinks db1 studentId
          (student.groups.map (fun m => m.group))
          (s3.groups.map (fun m => m.group))
      | none => db1
    UpdateOutcome.ok db2

/-- `updateStudent` (student.controller.js:494), restricted to the `coinBalance`
and `groups` request fields.  `coinBalanceReq = some c` models a numeric body
value (negative rejected with 400); `groupsReq = some raw` models a
well-formed array of valid ObjectIds that may still contain duplicates. -/
def updateStudent (db : DB) (studentId : Nat) (coinBalanceReq : Option Int)
    (groupsReq : Option (List Nat)) (now : Int) : UpdateOutcome :=
  if (coinBalanceReq.map (fun c => decide (c < 0))).getD false then
    UpdateOutcome.invalidCoinBalance
  else
    match groupsReq with
    | some raw =>
      match parseGroupIds raw with
      | none => UpdateOutcome.invalidGroupsPayload
      | some ids =>
        match validateGroupAssignments db ids (some studentId) with
        | some e => UpdateOutcome.groupAssign e
        | none => applyStudentUpdate db studentId coinBalanceReq (some ids) now
    | none => applyStudentUpdate db studentId coinBalanceReq none now

/-- Outcome of `createStudent`, restricted to the groups-handling path. -/
inductive CreateOutcome
  | invalidGroupsPayload
  | groupAssign (e : GroupAssignError)
  | ok (db : DB)
deriving DecidableEq, Repr

/-- `createStudent` (student.controller.js:230), restricted to the membership
logic: parse the desired group ids, validate them (without exclusion), create
the student document (which runs the groupAttached hook), then reconcile the
group mirrors.  Scalar field validation and the duplicate-phone 409 are
outside this embedding. -/
def createStudent (db : DB) (newStudent : Student)
    (groupsReq : Option (List Nat)) (now : Int) : CreateOutcome :=
  match groupsReq with
  | some raw =>
    match parseGroupIds raw with
    | none => CreateOutcome.invalidGroupsPayload
    | some ids =>
      match validateGroupAssignments db ids none with
      | some e => CreateOutcome.groupAssign e
      | none =>
        let s1 := recomputeGroupAttached
          { newStudent with groups := toStudentGroupMemberships ids now }
        let db1 := { db with students := db.students ++ [s1] }
        CreateOutcome.ok (syncGroupStudentLinks db1 newStudent.id [] ids)
  | none =>
    let s1 := recomputeGroupAttached { newStudent with groups := [] }
    CreateOutcome.ok { db with students := db.students ++ [s1] }

/-- Outcome of `rewardStudentCoins`. -/
inductive RewardResult
  | invalidAmount
  | studentNotFound
  | ok (db : DB)
deriving DecidableEq, Repr

/-- `rewardStudentCoins` (student.controller.js:447): `amount` must be a
positive integer; then `student.coinBalance += amount` and `student.save()`. -/
def rewardStudentCoins (db : DB) (studentId : Nat) (amount : Int) : RewardResult :=
  if amount ≤ 0 then RewardResult.invalidAmount
  else
    match findStudent db studentId with
    | none => RewardResult.studentNotFound
    | some student =>
      RewardResult.ok (putStudent db
        (recomputeGroupAttached { student with coinBalance := student.coinBalance + amount }))

/-! ### AttendanceLedger (group.controller.js:1014) -/

/-- `toDateKey` (group.controller.js:181): `new Date(v).toISOString().slice(0, 10)`
truncates the timestamp to its UTC calendar day.  Modelled as the floor of the
millisecond timestamp divided by one day, which identifies exactly the same
UTC day as the date string. -/
def toDateKey (ms : Int) : Int :=
  Int.fdiv ms 86400000

/-- One parsed element of the `records` request array
(`parseAttendanceRecords`, group.controller.js:115). -/
structure AttRecord where
  student : Nat
  status : AStatus
  note : Option String
deriving DecidableEq, Repr

/-- The attendance entry written for one record (group.controller.js:1068). -/
def attPayload (date : Int) (markedBy : Option Nat) (r : AttRecord) : AttendanceEntry :=
  { student := r.student, date := date, status := r.status,
    note := r.note, markedBy := markedBy }

/-- The `findIndex` predicate of the upsert loop (group.controller.js:1064):
same student id and same day key. -/
def attMatches (studentId : Nat) (dateKey : Int) (e : AttendanceEntry) : Bool :=
  e.student == studentId && toDateKey e.date == dateKey

/-- The per-record body of the upsert loop (group.controller.js:1063):
`findIndex` the first entry with the same student and the same day key,
replace it in place, otherwise append. -/
def upsertOneAttendance (payload : AttendanceEntry) (dateKey : Int) :
    List AttendanceEntry → List AttendanceEntry
  | [] => [payload]
  | e :: rest =>
    if attMatches payload.student dateKey e then
      payload :: rest
    else
      e :: upsertOneAttendance payload dateKey rest

/-- The whole `for (const record of records)` loop over one group's
attendance array. -/
def applyAttendanceRecords (att : List AttendanceEntry) (date : Int)
    (markedBy : Option Nat) (records : List AttRecord) : List AttendanceEntry :=
  records.foldl
    (fun acc r => upsertOneAttendance (attPayload date markedBy r) (toDateKey date) acc)
    att

/-- Outcome of `upsertGroupAttendance`. -/
inductive AttendanceResult
  | duplicateStudents
  | groupNotFound
  | notActiveMembers
  | ok (db : DB)
deriving DecidableEq, Repr

/-- `upsertGroupAttendance` (group.controller.js:1014): reject duplicate
student ids in the batch, require the group to exist and every named student
to hold an active membership of it, then run the upsert loop and save. -/
def upsertGroupAttendance (db : DB) (groupId : Nat) (date : Int)
    (records : List AttRecord) (markedBy : Option Nat) : AttendanceResult :=
  let studentIds := records.map (fun r => r.student)
  if studentIds.dedup.length != studentIds.length then
    AttendanceResult.duplicateStudents
  else
    match findGroup db groupId with
    | none => AttendanceResult.groupNotFound
    | some group =>
      let activeMembers := db.students.filter (fun s =>
        studentIds.contains s.id &&
        s.groups.any (fun m => m.group == groupId && m.status == MStatus.active))
      if activeMembers.length != studentIds.length then
        AttendanceResult.notActiveMembers
      else
        let att1 := applyAttendanceRecords group.attendance date markedBy records
        AttendanceResult.ok
          { db with groups := db.groups.map (fun g =>
              if g.id == groupId then { g with attendance := att1 } else g) }

/-- How many entries of an attendance list hit one (student, day-key) pair. -/
def countMatches (att : List AttendanceEntry) (studentId : Nat) (dk : Int) : Nat :=
  (att.filter (attMatches studentId dk)).length

/-! ### Student serialization (student.model.js:227) -/

/-- The plain object mongoose produces from a Student document before the
`toJSON` / `toObject` transform runs: one (key, printed value) pair per
schema path. -/
def studentToRet (s : Student) : List (String × String) :=
  [("_id", toString s.id),
    ("fullname", s.fullname),
    ("studentPhone", s.studentPhone),
    ("parentPhone", s.parentPhone),
    ("groupAttached", toString s.groupAttached),
    ("password", s.password),
    ("balance", toString s.balance),
    ("balanceResetAt", match s.balanceResetAt with
      | some t => toString t
      | none => "null"),
    ("coinBalance", toString s.coinBalance)]

/-- `hideSensitiveFields` (student.model.js:227): `delete ret.password;
delete ret.balanceResetAt`. -/
def hideSensitiveFields (ret : List (String × String)) : List (String × String) :=
  (ret.filter (fun kv => kv.1 != "password")).filter (fun kv => kv.1 != "balanceResetAt")

/-- The serialization applied by both `toJSON` and `toObject`
(student.model.js:233). -/
def studentToJSON (s : Student) : List (String × String) :=
  hideSensitiveFields (studentToRet s)

/-! ### Concrete documents and result extractors used by the scenario runs -/

/-- A fresh student document with the given id and memberships and the other
fields at their schema defaults. -/
def mkStudent (id : Nat) (groups : List Membership) : Student :=
  { id := id, fullname := "S", studentPhone := "70000000", parentPhone := "71111111",
    password := "hashed-password", groups := groups,
    groupAttached := groups.any (fun m => m.status == MStatus.active),
    balance := 0, balanceResetAt := some 0, coinBalance := 0 }

/-- A group document with the given id, status and capacity, empty mirror and
empty attendance log. -/
def mkGroup (id : Nat) (status : GStatus) (maxStudents : Nat) : Group :=
  { id := id, status := status, maxStudents := maxStudents,
    students := [], attendance := [] }

/-- The database an `AttachResult` carries, when it succeeded. -/
def attachOk : AttachResult → Option DB
  | AttachResult.ok _ db => some db
  | _ => none

/-- The database a `DetachResult` carries, when it succeeded. -/
def detachOk : DetachResult → Option DB
  | DetachResult.ok db => some db
  | _ => none

/-- The database an `AttendanceResult` carries, when it succeeded. -/
def attendanceOk : AttendanceResult → Option DB
  | AttendanceResult.ok db => some db
  | _ => none

/-- The database a `DeleteGroupResult` carries, when it succeeded. -/
def deleteOk : DeleteGroupResult → Option DB
  | DeleteGroupResult.ok db => some db
  | _ => none

/-- The database an `UpdateOutcome` carries, when it succeeded. -/
def updateOk : UpdateOutcome → Option DB
  | UpdateOutcome.ok db => some db
  | _ => none

/-- The database a `CreateOutcome` carries, when it succeeded. -/
def createOk : CreateOutcome → Option DB
  | CreateOutcome.ok db => some db
  | _ => none

/-- The database a `RewardResult` carries, when it succeeded. -/
def rewardOk : RewardResult → Option DB
  | RewardResult.ok db => some db
  | _ => none

/-- The coin balance a successful `updateStudent` outcome stores for one
student. -/
def okStudentCoin (o : UpdateOutcome) (studentId : Nat) : Option Int :=
  match o with
  | UpdateOutcome.ok db => (findStudent db studentId).map (fun s => s.coinBalance)
  | _ => none

/-- C1 scenario start: group 1 with `maxStudents = 2` and zero active members;
students 10 (A), 11 (B) and 12 (C) with no memberships. -/
def c1db0 : DB :=
  { students := [mkStudent 10 [], mkStudent 11 [], mkStudent 12 []],
    groups := [mkGroup 1 GStatus.active 2] }

/-- C1 scenario after activating student A. -/
def c1db1 : DB :=
  (attachOk (attachStudentToGroup c1db0 1 10 (some MStatus.active) none none 0)).getD c1db0

/-- C1 scenario after activating students A and B. -/
def c1db2 : DB :=
  (attachOk (attachStudentToGroup c1db1 1 11 (some MStatus.active) none none 0)).getD c1db1

/-- C1 scenario after additionally detaching student A. -/
def c1db3 : DB :=
  (detachOk (detachStudentFromGroup c1db2 1 10)).getD c1db2

/-- C3 scenario: group 1 with an empty attendance log and student 20 holding
an active membership of it. -/
def c3db : DB :=
  { students :=
      [mkStudent 20 [{ group := 1, status := MStatus.active, joinedAt := 0, note := none }]],
    groups := [mkGroup 1 GStatus.active 10] }

/-- C3 scenario records: one `present` mark for student 20. -/
def c3records : List AttRecord :=
  [{ student := 20, status := AStatus.present, note := some "ok" }]

/-- C3 scenario state after the first submission. -/
def c3db1 : DB :=
  (attendanceOk (upsertGroupAttendance c3db 1 432000123 c3records (some 7))).getD c3db

/-- C4 scenario students: student 1 was reset 31 days before day 100 and holds
balance 5000; student 2 was reset 2 days before day 100. -/
def c4students : List Student :=
  [{ mkStudent 1 [] with balance := 5000, balanceResetAt := some (69 * 86400000) },
    { mkStudent 2 [] with balance := 7, balanceResetAt := some (98 * 86400000) }]

/-- C5 scenario: scheduler state after a first non-forced run at time 10^9
starting from the initial module state. -/
def c5st1 : SchedState :=
  (resetStudentBalancesIfNeeded false 1000000000 none false
    { running := false, lastRunAt := 0 } []).2.1

/-- C7 / C8 / C9 database: one completed group (id 2, capacity 5), one open
group (id 3, capacity 5) and a student (id 1) with no memberships and
coin balance 100. -/
def c7db : DB :=
  { students := [{ mkStudent 1 [] with coinBalance := 100 }],
    groups := [mkGroup 2 GStatus.completed 5, mkGroup 3 GStatus.active 5] }

/-- C2 scenario: state after deleting group 1 from `c1db2` (both active
members get their membership pulled and `groupAttached` recomputed). -/
def c2dbDel : DB := (deleteOk (deleteGroup c1db2 1)).getD c1db2

/-- C2 scenario: state after an update that sets student 1's coin balance and
replaces their memberships with group 3. -/
def c2dbUpd : DB := (updateOk (updateStudent c7db 1 (some 5) (some [3]) 0)).getD c7db

/-- C2 scenario: state after creating student 99 attached to group 1. -/
def c2dbCre : DB := (createOk (createStudent c1db0 (mkStudent 99 []) (some [1]) 0)).getD c1db0

/-- C9 scenario: state after rewarding student 1 of `c7db` with 50 coins. -/
def c9dbRw : DB := (rewardOk (rewardStudentCoins c7db 1 50)).getD c7db

/-! ## Theorems -/

/-- C10: the public serialization `studentToJSON` (shared by the `toJSON` and
`toObject` transforms of the student schema) never contains the `password` or
`balanceResetAt` keys, whatever the stored document holds, so no
student-returning endpoint exposes them. -/
theorem C10_serialization_hides_sensitive_fields (s : Student) :
    "password" ∉ (studentToJSON s).map Prod.fst ∧
    "balanceResetAt" ∉ (studentToJSON s).map Prod.fst := by
  simp [studentToJSON, hideSensitiveFields, studentToRet]

/-- C5: a non-forced call to `resetStudentBalancesIfNeeded` inside the
throttle window (`now − lastRunAt < minGapMs cfg`, the configured gap
floor-clamped to 10 seconds) returns "skipped: throttled" and changes neither
the scheduler state nor any student. -/
theorem C5_sweep_throttled (now : Int) (cfg : Option Int) (updateFails : Bool)
    (st : SchedState) (students : List Student)
    (h : now - st.lastRunAt < minGapMs cfg) :
    resetStudentBalancesIfNeeded false now cfg updateFails st students =
      (SweepResult.skippedThrottled, st, students) := by
  unfold resetStudentBalancesIfNeeded
  rw [if_pos ⟨rfl, h⟩]

/-- C5 witness: the scenario — a first non-forced call at time 10^9 runs the
sweep, and a second non-forced call one second later is throttled with no
writes. -/
theorem C5_sweep_throttled_witness :
    (resetStudentBalancesIfNeeded false 1000000000 none false
        { running := false, lastRunAt := 0 } []).1 = SweepResult.ran 0 ∧
    (1000000000 + 1000) - c5st1.lastRunAt < minGapMs none ∧
    resetStudentBalancesIfNeeded false (1000000000 + 1000) none false c5st1 [] =
      (SweepResult.skippedThrottled, c5st1, []) :=
  ⟨by decide, by decide,
    C5_sweep_throttled (1000000000 + 1000) none false c5st1 [] (by decide)⟩

/-- C4: a run of `resetStudentBalancesIfNeeded` that is neither throttled nor
blocked by the running flag nor failing performs the bulk update: exactly the
students whose `balanceResetAt` is absent or at least 30 days old get
`balance = 0` and `balanceResetAt = now`, and every other student is left
unchanged. -/
theorem C4_sweep_resets_exactly_due_students (force : Bool) (now : Int)
    (cfg : Option Int) (st : SchedState) (students : List Student)
    (hgate : force = true ∨ minGapMs cfg ≤ now - st.lastRunAt)
    (hrun : st.running = false) :
    resetStudentBalancesIfNeeded force now cfg false st students =
      (SweepResult.ran (students.filter (studentDue now)).length,
        { running := false, lastRunAt := now },
        students.map (sweepStudent now)) ∧
    (∀ s : Student, s.balanceResetAt = none →
      sweepStudent now s = { s with balance := 0, balanceResetAt := some now }) ∧
    (∀ (s : Student) (t : Int), s.balanceResetAt = some t →
      THIRTY_DAYS_MS ≤ now - t →
      sweepStudent now s = { s with balance := 0, balanceResetAt := some now }) ∧
    (∀ (s : Student) (t : Int), s.balanceResetAt = some t →
      now - t < THIRTY_DAYS_MS → sweepStudent now s = s) := by
  refine ⟨?_, ?_, ?_, ?_⟩
  · have h1 : ¬(force = false ∧ now - st.lastRunAt < minGapMs cfg) := by
      rcases hgate with h | h
      · rintro ⟨hf, _⟩
        rw [h] at hf
        cases hf
      · rintro ⟨_, hlt⟩
        omega
    unfold resetStudentBalancesIfNeeded
    rw [if_neg h1, hrun]
    simp
  · intro s hnone
    simp [sweepStudent, studentDue, hnone]
  · intro s t hsome hle
    have : t ≤ now - THIRTY_DAYS_MS := by omega
    simp [sweepStudent, studentDue, hsome, this]
  · intro s t hsome hlt
    have : ¬ t ≤ now - THIRTY_DAYS_MS := by omega
    simp [sweepStudent, studentDue, hsome, this]

/-- C4 witness: on `c4students` at day 100, a forced run resets the student
whose reset is 31 days old (balance 5000 → 0, `balanceResetAt` → now) and
leaves the student reset 2 days ago untouched. -/
theorem C4_sweep_resets_exactly_due_students_witness :
    resetStudentBalancesIfNeeded true (100 * 86400000) none false
        { running := false, lastRunAt := 0 } c4students =
      (SweepResult.ran (c4students.filter (studentDue (100 * 86400000))).length,
        { running := false, lastRunAt := 100 * 86400000 },
        c4students.map (sweepStudent (100 * 86400000))) ∧
    c4students.map (sweepStudent (100 * 86400000)) =
      [{ mkStudent 1 [] with balance := 0, balanceResetAt := some (100 * 86400000) },
        { mkStudent 2 [] with balance := 7, balanceResetAt := some (98 * 86400000) }] :=
  ⟨(C4_sweep_resets_exactly_due_students true (100 * 86400000) none
      { running := false, lastRunAt := 0 } c4students (Or.inl rfl) rfl).1,
    by decide⟩

/-- C6: mutual exclusion and guaranteed release — once past the throttle, a
call to `resetStudentBalancesIfNeeded` that finds `running = true` returns
"skipped: in_progress" with no writes; and a sweep that actually starts
(`running = false` at entry) always terminates with `running = false`, even
when the bulk update throws, so a later call is not rejected as in-progress. -/
theorem C6_sweep_mutex_and_guaranteed_release (force updateFails : Bool)
    (now : Int) (cfg : Option Int) (st : SchedState) (students : List Student) :
    (st.running = true → (force = true ∨ minGapMs cfg ≤ now - st.lastRunAt) →
      resetStudentBalancesIfNeeded force now cfg updateFails st students =
        (SweepResult.skippedInProgress, st, students)) ∧
    (st.running = false →
      ((resetStudentBalancesIfNeeded force now cfg updateFails st students).2.1).running
        = false) := by
  constructor
  · intro hr hgate
    have h1 : ¬(force = false ∧ now - st.lastRunAt < minGapMs cfg) := by
      rcases hgate with h | h
      · rintro ⟨hf, _⟩
        rw [h] at hf
        cases hf
      · rintro ⟨_, hlt⟩
        omega
    unfold resetStudentBalancesIfNeeded
    rw [if_neg h1, hr]
    simp
  · intro hr
    unfold resetStudentBalancesIfNeeded
    rw [hr]
    split
    · simp [hr]
    · simp
      split
      · rfl
      · rfl

/-- C6 witness: with `running = true` a forced call at time 5 skips as
in-progress and changes nothing; and a forced sweep whose update fails still
ends with `running = false`. -/
theorem C6_sweep_mutex_and_guaranteed_release_witness :
    resetStudentBalancesIfNeeded true 5 none false
        { running := true, lastRunAt := 0 } [] =
      (SweepResult.skippedInProgress, { running := true, lastRunAt := 0 }, []) ∧
    ((resetStudentBalancesIfNeeded true 5 none true
        { running := false, lastRunAt := 0 } []).2.1).running = false :=
  ⟨(C6_sweep_mutex_and_guaranteed_release true false 5 none
      { running := true, lastRunAt := 0 } []).1 rfl (Or.inl rfl),
    (C6_sweep_mutex_and_guaranteed_release true true 5 none
      { running := false, lastRunAt := 0 } []).2 rfl⟩

/-- If `f` is defined on every element, `filterMap` keeps the length. -/
theorem length_filterMap_of_isSome {α β : Type} (f : α → Option β) :
    ∀ l : List α, (∀ a ∈ l, (f a).isSome) → (l.filterMap f).length = l.length := by
  intro l
  induction l with
  | nil => intro _; rfl
  | cons a l ih =>
    intro h
    have ha := h a (List.mem_cons_self a l)
    cases hfa : f a with
    | none => rw [hfa] at ha; cases ha
    | some b =>
      simp only [List.filterMap_cons, hfa, List.length_cons]
      rw [ih (fun x hx => h x (List.mem_cons_of_mem a hx))]

/-- The aggregation-pipeline recomputation
`(filter status == active).length > 0` agrees with `List.any`. -/
theorem filter_length_pos_any {α : Type} (l : List α) (p : α → Bool) :
    decide (0 < (l.filter p).length) = l.any p := by
  induction l with
  | nil => simp
  | cons a l ih =>
    by_cases h : p a
    · simp [h]
    · simp [h, ih]

/-- Re-saving a student always re-establishes its C2 consistency. -/
theorem studentConsistent_recompute (s : Student) :
    studentConsistent (recomputeGroupAttached s) := rfl

/-- `dbConsistent` only looks at the student collection. -/
theorem dbConsistent_of_students_eq {db1 db2 : DB}
    (h : db2.students = db1.students) (hdb : dbConsistent db1) : dbConsistent db2 := by
  intro s hs
  rw [h] at hs
  exact hdb s hs

/-- Persisting a consistent student keeps the collection consistent. -/
theorem dbConsistent_putStudent {db : DB} {s : Student} (hdb : dbConsistent db)
    (hs : studentConsistent s) : dbConsistent (putStudent db s) := by
  intro x hx
  simp only [putStudent, List.mem_map] at hx
  obtain ⟨t, ht, hxt⟩ := hx
  by_cases h : (t.id == s.id) = true
  · rw [if_pos h] at hxt
    exact hxt ▸ hs
  · rw [if_neg h] at hxt
    exact hxt ▸ hdb t ht

/-- C1: for an attach request with desired status `active` on a group that is
not completed/archived, by a student holding no active membership of that
group, `attachStudentToGroup` rejects with the 409 capacity error — writing
nothing, since the error is returned before any save — exactly when the live
count of active members excluding the student reaches `maxStudents`, and
otherwise succeeds (201-style creation when no membership row existed,
200-style update otherwise). -/
theorem C1_attach_capacity_guard (db : DB) (groupId studentId : Nat)
    (ja : Option Int) (nt : Option String) (now : Int)
    (group : Group) (student : Student)
    (hg : findGroup db groupId = some group)
    (hs : findStudent db studentId = some student)
    (hact : ∀ m ∈ student.groups, m.group = groupId → m.status ≠ MStatus.active)
    (hopen : group.status ≠ GStatus.completed ∧ group.status ≠ GStatus.archived) :
    (group.maxStudents ≤ countActiveStudentsForGroup db groupId (some studentId) →
      attachStudentToGroup db groupId studentId (some MStatus.active) ja nt now =
        AttachResult.capacityFull) ∧
    (countActiveStudentsForGroup db groupId (some studentId) < group.maxStudents →
      ∃ db1, attachStudentToGroup db groupId studentId (some MStatus.active) ja nt now =
        AttachResult.ok (student.groups.find? (fun m => m.group == groupId)).isNone db1) := by
  have hclosed : (group.status == GStatus.completed || group.status == GStatus.archived)
      = false := by
    rcases hopen with ⟨h1, h2⟩
    simp only [Bool.or_eq_false_iff, beq_eq_false_iff_ne, ne_eq]
    exact ⟨h1, h2⟩
  have hseat : (match student.groups.find? (fun m => m.group == groupId) with
      | none => true
      | some m => m.status != MStatus.active) = true := by
    cases hf : student.groups.find? (fun m => m.group == groupId) with
    | none => rfl
    | some m =>
      have hmem := List.mem_of_find?_eq_some hf
      have hpred := List.find?_some hf
      have hgid : m.group = groupId := by simpa using hpred
      simpa [bne_iff_ne] using hact m hmem hgid
  constructor
  · intro hcap
    simp only [attachStudentToGroup, hg, hs, Option.getD_some, hclosed, hseat]
    simp [hcap]
  · intro hcap
    simp only [attachStudentToGroup, hg, hs, Option.getD_some, hclosed, hseat]
    simp only [Nat.not_le.mpr hcap]
    exact ⟨_, rfl⟩

/-- C1 witness: the spec scenario on group 1 (`maxStudents = 2`): activating
students 10 and 11 succeeds, activating 12 is rejected by the capacity guard
(through the theorem, with the live count at 2), and after detaching 10 the
activation of 12 succeeds. -/
theorem C1_attach_capacity_guard_witness :
    attachStudentToGroup c1db0 1 10 (some MStatus.active) none none 0 =
      AttachResult.ok true c1db1 ∧
    attachStudentToGroup c1db1 1 11 (some MStatus.active) none none 0 =
      AttachResult.ok true c1db2 ∧
    2 ≤ countActiveStudentsForGroup c1db2 1 (some 12) ∧
    attachStudentToGroup c1db2 1 12 (some MStatus.active) none none 0 =
      AttachResult.capacityFull ∧
    detachStudentFromGroup c1db2 1 10 = DetachResult.ok c1db3 ∧
    (attachOk (attachStudentToGroup c1db3 1 12 (some MStatus.active) none none 0)).isSome
      = true :=
  ⟨by decide, by decide, by decide,
    (C1_attach_capacity_guard c1db2 1 12 none none 0
      { mkGroup 1 GStatus.active 2 with students := [10, 11] } (mkStudent 12 [])
      (by decide) (by decide) (by decide) ⟨by decide, by decide⟩).1 (by decide),
    by decide, by decide⟩

/-- C7: the completed/archived policy is absolute — an attach request with
desired status `active` on a completed or archived group is rejected for
every database (so independently of any seat count, which is never reached),
with no write; a request with a non-active desired status is never rejected
by the closed-group rule or the capacity rule; and in the groups-replacement
path, `validateGroupAssignments` rejects a list naming a completed/archived
group for every student collection, again before any capacity comparison. -/
theorem C7_closed_group_policy (db : DB) (groupId studentId : Nat)
    (ja : Option Int) (nt : Option String) (now : Int) :
    (∀ (group : Group) (student : Student),
      findGroup db groupId = some group →
      findStudent db studentId = some student →
      (group.status = GStatus.completed ∨ group.status = GStatus.archived) →
      attachStudentToGroup db groupId studentId (some MStatus.active) ja nt now =
        AttachResult.closedGroup) ∧
    (∀ st0 : MStatus, st0 ≠ MStatus.active →
      attachStudentToGroup db groupId studentId (some st0) ja nt now ≠
        AttachResult.closedGroup ∧
      attachStudentToGroup db groupId studentId (some st0) ja nt now ≠
        AttachResult.capacityFull) ∧
    (∀ (ids : List Nat) (ex : Option Nat) (group : Group),
      (∀ i ∈ ids, (findGroup db i).isSome) →
      groupId ∈ ids →
      findGroup db groupId = some group →
      (group.status = GStatus.completed ∨ group.status = GStatus.archived) →
      validateGroupAssignments db ids ex = some GroupAssignError.closedGroup) := by
  refine ⟨?_, ?_, ?_⟩
  · intro group student hg hs hclosed
    have hb : (group.status == GStatus.completed || group.status == GStatus.archived)
        = true := by
      rcases hclosed with h | h <;> simp [h]
    simp only [attachStudentToGroup, hg, hs, Option.getD_some, hb]
    simp
  · intro st0 hst0
    have hb : (st0 == MStatus.active) = false := by
      simpa [beq_eq_false_iff_ne] using hst0
    cases hg : findGroup db groupId with
    | none => simp [attachStudentToGroup, hg]
    | some group =>
      cases hs : findStudent db studentId with
      | none => simp [attachStudentToGroup, hg, hs]
      | some student =>
        simp [attachStudentToGroup, hg, hs, hb]
  · intro ids ex group hall hmem hg hclosed
    have hne : ids.length ≠ 0 := by
      cases ids with
      | nil => cases hmem
      | cons a l => simp
    have hlen : (ids.filterMap (fun gid => findGroup db gid)).length = ids.length :=
      length_filterMap_of_isSome _ ids hall
    have hany : (ids.dedup.any (fun gid =>
        match findGroup db gid with
        | some g => g.status == GStatus.completed || g.status == GStatus.archived
        | none => false)) = true := by
      rw [List.any_eq_true]
      refine ⟨groupId, List.mem_dedup.mpr hmem, ?_⟩
      rw [hg]
      rcases hclosed with h | h <;> simp [h]
    simp only [validateGroupAssignments]
    rw [if_neg (by simpa using hne)]
    rw [if_neg (by simp [hlen])]
    rw [if_pos hany]

/-- C7 witness: on `c7db`, whose group 2 is completed, an active attach of
student 1 is rejected as closed-group even though only 0 of 5 seats are
taken; attaching with status `paused` is rejected by neither rule; and a
groups replacement naming group 2 fails closed-group through
`validateGroupAssignments`. -/
theorem C7_closed_group_policy_witness :
    countActiveStudentsForGroup c7db 2 (some 1) = 0 ∧
    attachStudentToGroup c7db 2 1 (some MStatus.active) none none 0 =
      AttachResult.closedGroup ∧
    (attachStudentToGroup c7db 2 1 (some MStatus.paused) none none 0 ≠
        AttachResult.closedGroup ∧
      attachStudentToGroup c7db 2 1 (some MStatus.paused) none none 0 ≠
        AttachResult.capacityFull) ∧
    validateGroupAssignments c7db [3, 2] none = some GroupAssignError.closedGroup :=
  ⟨by decide,
    (C7_closed_group_policy c7db 2 1 none none 0).1
      (mkGroup 2 GStatus.completed 5) ({ mkStudent 1 [] with coinBalance := 100 })
      (by decide) (by decide) (Or.inl rfl),
    (C7_closed_group_policy c7db 2 1 none none 0).2.1 MStatus.paused (by decide),
    (C7_closed_group_policy c7db 2 1 none none 0).2.2 [3, 2] none
      (mkGroup 2 GStatus.completed 5) (by decide) (by decide) (by decide) (Or.inl rfl)⟩

/-- C2: after every membership-mutating operation — attach, detach, delete
group, update student, create student — every stored student satisfies
`groupAttached = (some membership is active)`; the save hook
(`recomputeGroupAttached`) or, for `deleteGroup`, the explicit pipeline
recomputation re-derives the flag, and no operation accepts `groupAttached`
as an input, so it is never independently settable. -/
theorem C2_groupAttached_invariant (db : DB) (hdb : dbConsistent db) :
    (∀ (gid sid : Nat) (rs : Option MStatus) (ja : Option Int) (nt : Option String)
        (now : Int) (c : Bool) (db1 : DB),
      attachStudentToGroup db gid sid rs ja nt now = AttachResult.ok c db1 →
      dbConsistent db1) ∧
    (∀ (gid sid : Nat) (db1 : DB),
      detachStudentFromGroup db gid sid = DetachResult.ok db1 → dbConsistent db1) ∧
    (∀ (gid : Nat) (db1 : DB),
      deleteGroup db gid = DeleteGroupResult.ok db1 → dbConsistent db1) ∧
    (∀ (sid : Nat) (coin : Option Int) (gr : Option (List Nat)) (now : Int) (db1 : DB),
      updateStudent db sid coin gr now = UpdateOutcome.ok db1 → dbConsistent db1) ∧
    (∀ (s : Student) (gr : Option (List Nat)) (now : Int) (db1 : DB),
      createStudent db s gr now = CreateOutcome.ok db1 → dbConsistent db1) := by
  refine ⟨?_, ?_, ?_, ?_, ?_⟩
  · intro gid sid rs ja nt now c db1 heq
    cases hg : findGroup db gid with
    | none => simp only [attachStudentToGroup, hg] at heq; cases heq
    | some group =>
      cases hs : findStudent db sid with
      | none => simp only [attachStudentToGroup, hg, hs] at heq; cases heq
      | some student =>
        simp only [attachStudentToGroup, hg, hs] at heq
        split at heq
        · cases heq
        split at heq
        · cases heq
        injection heq with h1 h2
        subst h2
        exact dbConsistent_of_students_eq rfl
          (dbConsistent_putStudent hdb (studentConsistent_recompute _))
  · intro gid sid db1 heq
    cases hg : findGroup db gid with
    | none => simp only [detachStudentFromGroup, hg] at heq; cases heq
    | some group =>
      cases hs : findStudent db sid with
      | none => simp only [detachStudentFromGroup, hg, hs] at heq; cases heq
      | some student =>
        simp only [detachStudentFromGroup, hg, hs] at heq
        split at heq
        · cases heq
        injection heq with h1
        subst h1
        exact dbConsistent_of_students_eq rfl
          (dbConsistent_putStudent hdb (studentConsistent_recompute _))
  · intro gid db1 heq
    cases hg : findGroup db gid with
    | none => simp only [deleteGroup, hg] at heq; cases heq
    | some group =>
      simp only [deleteGroup, hg] at heq
      injection heq with h1
      subst h1
      intro x hx
      simp only [List.mem_map] at hx
      obtain ⟨t, ht, hxt⟩ := hx
      by_cases hmem : (t.groups.any (fun m => m.group == gid)) = true
      · rw [if_pos hmem] at hxt
        subst hxt
        exact filter_length_pos_any _ _
      · rw [if_neg hmem] at hxt
        exact hxt ▸ hdb t ht
  · intro sid coin gr now db1 heq
    have happly : ∀ gids : Option (List Nat),
        applyStudentUpdate db sid coin gids now = UpdateOutcome.ok db1 →
        dbConsistent db1 := by
      intro gids h
      cases hs : findStudent db sid with
      | none => simp only [applyStudentUpdate, hs] at h; cases h
      | some student =>
        simp only [applyStudentUpdate, hs] at h
        cases gids with
        | none =>
          injection h with h1
          subst h1
          exact dbConsistent_of_students_eq rfl
            (dbConsistent_putStudent hdb (studentConsistent_recompute _))
        | some gl =>
          injection h with h1
          subst h1
          exact dbConsistent_of_students_eq rfl
            (dbConsistent_putStudent hdb (studentConsistent_recompute _))
    simp only [updateStudent] at heq
    split at heq
    · cases heq
    split at heq
    · split at heq
      · cases heq
      split at heq
      · cases heq
      exact happly _ heq
    · exact happly _ heq
  · intro s gr now db1 heq
    have hconc : ∀ (s1 : Student) (db2 : DB), dbConsistent db2 → studentConsistent s1 →
        dbConsistent { db2 with students := db2.students ++ [s1] } := by
      intro s1 db2 h2 h1 x hx
      simp only [List.mem_append, List.mem_singleton] at hx
      rcases hx with hx | hx
      · exact h2 x hx
      · exact hx ▸ h1
    cases gr with
    | none =>
      simp only [createStudent] at heq
      injection heq with h1
      subst h1
      exact hconc _ _ hdb (studentConsistent_recompute _)
    | some raw =>
      simp only [createStudent] at heq
      split at heq
      · cases heq
      split at heq
      · cases heq
      injection heq with h1
      subst h1
      exact dbConsistent_of_students_eq rfl
        (hconc _ _ hdb (studentConsistent_recompute _))

/-- C2 witness: the invariant holds on the scenario databases produced by an
attach (`c1db1`), a detach (`c1db3`), a group deletion with two active
members (`c2dbDel`), a student update replacing memberships (`c2dbUpd`) and a
student creation with one membership (`c2dbCre`). -/
theorem C2_groupAttached_invariant_witness :
    dbConsistent c1db1 ∧ dbConsistent c1db3 ∧ dbConsistent c2dbDel ∧
    dbConsistent c2dbUpd ∧ dbConsistent c2dbCre :=
  ⟨(C2_groupAttached_invariant c1db0 (by decide)).1 1 10 (some MStatus.active)
      none none 0 true c1db1 (by decide),
    (C2_groupAttached_invariant c1db2 (by decide)).2.1 1 10 c1db3 (by decide),
    (C2_groupAttached_invariant c1db2 (by decide)).2.2.1 1 c2dbDel (by decide),
    (C2_groupAttached_invariant c7db (by decide)).2.2.2.1 1 (some 5) (some [3]) 0
      c2dbUpd (by decide),
    (C2_groupAttached_invariant c1db0 (by decide)).2.2.2.2 (mkStudent 99 [])
      (some [1]) 0 c2dbCre (by decide)⟩

/-- `Group.findById` returns a document whose id is the searched one. -/
theorem findGroup_id {db : DB} {gid : Nat} {g : Group}
    (h : findGroup db gid = some g) : g.id = gid := by
  have := List.find?_some h
  simpa using this

/-- `Student.findById` returns a document whose id is the searched one. -/
theorem findStudent_id {db : DB} {sid : Nat} {s : Student}
    (h : findStudent db sid = some s) : s.id = sid := by
  have := List.find?_some h
  simpa using this

/-- Dropping at least one element strictly shrinks a `filterMap`. -/
theorem length_filterMap_lt_of_none {α β : Type} (f : α → Option β) (a : α) :
    ∀ l : List α, a ∈ l → f a = none → (l.filterMap f).length < l.length := by
  intro l
  induction l with
  | nil => intro h; cases h
  | cons b l ih =>
    intro hmem hnone
    cases hfb : f b with
    | none =>
      simp only [List.filterMap_cons, hfb, List.length_cons]
      exact Nat.lt_succ_of_le (List.length_filterMap_le f l)
    | some c =>
      simp only [List.filterMap_cons, hfb, List.length_cons]
      have hal : a ∈ l := by
        rcases List.mem_cons.mp hmem with h | h
        · subst h; rw [hnone] at hfb; cases hfb
        · exact h
      exact Nat.succ_lt_succ (ih hal hnone)

/-- The `found` set `validateGroupAssignments` builds holds exactly the
requested ids that resolve to a group. -/
theorem mem_foundIds_iff (db : DB) (ids : List Nat) (x : Nat) :
    x ∈ (ids.filterMap (fun gid => findGroup db gid)).map (fun g => g.id) ↔
      x ∈ ids ∧ (findGroup db x).isSome := by
  constructor
  · intro hx
    rcases List.mem_map.mp hx with ⟨g, hg, rfl⟩
    rcases List.mem_filterMap.mp hg with ⟨y, hy, hfy⟩
    rw [findGroup_id hfy]
    exact ⟨hy, by simp [hfy]⟩
  · rintro ⟨hx, hsome⟩
    cases hf : findGroup db x with
    | none => rw [hf] at hsome; cases hsome
    | some g =>
      exact List.mem_map.mpr ⟨g, List.mem_filterMap.mpr ⟨x, hx, hf⟩, findGroup_id hf⟩

/-- When a requested group id resolves to no document,
`validateGroupAssignments` fails with `groupsNotFound` carrying exactly the
unresolvable ids. -/
theorem validateGroupAssignments_missing (db : DB) (ids : List Nat)
    (ex : Option Nat) (m : Nat) (hm : m ∈ ids) (hnone : findGroup db m = none) :
    ∃ missing, validateGroupAssignments db ids ex =
        some (GroupAssignError.groupsNotFound missing) ∧
      m ∈ missing ∧ (∀ x, x ∈ missing ↔ x ∈ ids ∧ findGroup db x = none) := by
  have hne : (ids.length == 0) = false := by
    cases ids with
    | nil => cases hm
    | cons a l => simp
  have hlt := length_filterMap_lt_of_none (fun gid => findGroup db gid) m ids hm hnone
  have hbne : ((ids.filterMap (fun gid => findGroup db gid)).length != ids.length)
      = true := by
    simp only [bne_iff_ne, ne_eq]
    omega
  refine ⟨ids.filter (fun gid =>
      !((ids.filterMap (fun gid2 => findGroup db gid2)).map (fun g => g.id)).contains gid),
    ?_, ?_, ?_⟩
  · simp only [validateGroupAssignments, hne, hbne]
    rfl
  · rw [List.mem_filter]
    refine ⟨hm, ?_⟩
    simp only [Bool.not_eq_eq_eq_not, Bool.not_true]  -- goal: contains = false
    rw [← Bool.not_eq_true]
    intro hc
    have := (mem_foundIds_iff db ids m).mp (by simpa using hc)
    rw [hnone] at this
    cases this.2
  · intro x
    rw [List.mem_filter]
    constructor
    · rintro ⟨hx, hnc⟩
      refine ⟨hx, ?_⟩
      cases hfx : findGroup db x with
      | none => rfl
      | some g =>
        have : x ∈ (ids.filterMap (fun gid => findGroup db gid)).map (fun g => g.id) :=
          (mem_foundIds_iff db ids x).mpr ⟨hx, by simp [hfx]⟩
        simp only [Bool.not_eq_true'] at hnc
        rw [← Bool.not_eq_true] at hnc
        exact absurd (by simpa using this) hnc
    · rintro ⟨hx, hfx⟩
      refine ⟨hx, ?_⟩
      simp only [Bool.not_eq_eq_eq_not, Bool.not_true]
      rw [← Bool.not_eq_true]
      intro hc
      have := (mem_foundIds_iff db ids x).mp (by simpa using hc)
      rw [hfx] at this
      cases this.2

/-- A duplicated id makes `parseGroupIds` fail. -/
theorem parseGroupIds_none_of_not_nodup (raw : List Nat) (h : ¬ raw.Nodup) :
    parseGroupIds raw = none := by
  have hlt : raw.dedup.length ≠ raw.length := by
    intro hEq
    have := (List.dedup_sublist raw).eq_of_length hEq
    exact h (this ▸ List.nodup_dedup raw)
  unfold parseGroupIds
  rw [if_neg (by simpa using hlt)]

/-- C8 counterexample: on `c7db` (which has no group 5), replacing student 1's
groups with `[5]` does not produce a not-found outcome — the failure
`validateGroupAssignments` returns carries `statusCode` 400, the
validation-rejected code, while every not-found outcome of the controllers
carries 404. -/
theorem C8_missing_groups_counterexample :
    updateStudent c7db 1 none (some [5]) 0 =
      UpdateOutcome.groupAssign (GroupAssignError.groupsNotFound [5]) ∧
    statusCodeOf (GroupAssignError.groupsNotFound [5]) = 400 ∧
    statusCodeOf (GroupAssignError.groupsNotFound [5]) ≠ 404 := by
  decide

/-- C8 (amended): a student create or update whose desired groups list names a
group id that resolves to no document fails with a 400 validation-style
outcome whose payload is exactly the missing ids, and no change is applied
(the failure constructors carry no database); a desired list containing a
duplicate id fails the parse with the 400 validation outcome. -/
theorem C8_amended_missing_and_duplicate_groups :
    (∀ (db : DB) (sid : Nat) (raw ids : List Nat) (now : Int) (m : Nat),
      parseGroupIds raw = some ids → m ∈ ids → findGroup db m = none →
      ∃ missing, updateStudent db sid none (some raw) now =
          UpdateOutcome.groupAssign (GroupAssignError.groupsNotFound missing) ∧
        statusCodeOf (GroupAssignError.groupsNotFound missing) = 400 ∧
        m ∈ missing ∧ (∀ x, x ∈ missing ↔ x ∈ ids ∧ findGroup db x = none)) ∧
    (∀ (db : DB) (s : Student) (raw ids : List Nat) (now : Int) (m : Nat),
      parseGroupIds raw = some ids → m ∈ ids → findGroup db m = none →
      ∃ missing, createStudent db s (some raw) now =
          CreateOutcome.groupAssign (GroupAssignError.groupsNotFound missing) ∧
        statusCodeOf (GroupAssignError.groupsNotFound missing) = 400 ∧
        m ∈ missing ∧ (∀ x, x ∈ missing ↔ x ∈ ids ∧ findGroup db x = none)) ∧
    (∀ (db : DB) (sid : Nat) (s : Student) (raw : List Nat) (now : Int),
      ¬ raw.Nodup →
      updateStudent db sid none (some raw) now = UpdateOutcome.invalidGroupsPayload ∧
      createStudent db s (some raw) now = CreateOutcome.invalidGroupsPayload) := by
  refine ⟨?_, ?_, ?_⟩
  · intro db sid raw ids now m hparse hm hnone
    obtain ⟨missing, hv, hmm, hchar⟩ :=
      validateGroupAssignments_missing db ids (some sid) m hm hnone
    refine ⟨missing, ?_, rfl, hmm, hchar⟩
    simp only [updateStudent, hparse, hv]
    rfl
  · intro db s raw ids now m hparse hm hnone
    obtain ⟨missing, hv, hmm, hchar⟩ :=
      validateGroupAssignments_missing db ids none m hm hnone
    refine ⟨missing, ?_, rfl, hmm, hchar⟩
    simp only [createStudent, hparse, hv]
  · intro db sid s raw now hdup
    have hp := parseGroupIds_none_of_not_nodup raw hdup
    constructor
    · simp only [updateStudent, hp]
      rfl
    · simp only [createStudent, hp]

/-- C8 amended witness: on `c7db`, a groups replacement naming the absent group
5 fails with the 400 `groupsNotFound` outcome carrying id 5, and the duplicate
list `[3, 3]` fails the parse on both the update and the create path. -/
theorem C8_amended_missing_and_duplicate_groups_witness :
    parseGroupIds [5] = some [5] ∧ (5 : Nat) ∈ [5] ∧ findGroup c7db 5 = none ∧
    (∃ missing, updateStudent c7db 1 none (some [5]) 0 =
        UpdateOutcome.groupAssign (GroupAssignError.groupsNotFound missing) ∧
      statusCodeOf (GroupAssignError.groupsNotFound missing) = 400 ∧
      5 ∈ missing ∧ (∀ x, x ∈ missing ↔ x ∈ [5] ∧ findGroup c7db x = none)) ∧
    updateStudent c7db 1 none (some [3, 3]) 0 = UpdateOutcome.invalidGroupsPayload ∧
    createStudent c7db (mkStudent 9 []) (some [3, 3]) 0 =
      CreateOutcome.invalidGroupsPayload :=
  ⟨by decide, by decide, by decide,
    (C8_amended_missing_and_duplicate_groups).1 c7db 1 [5] [5] 0 5
      (by decide) (by decide) (by decide),
    ((C8_amended_missing_and_duplicate_groups).2.2 c7db 1 (mkStudent 9 [])
      [3, 3] 0 (by decide)).1,
    ((C8_amended_missing_and_duplicate_groups).2.2 c7db 1 (mkStudent 9 [])
      [3, 3] 0 (by decide)).2⟩

/-- `find?` by id over a saved collection returns the saved document whenever
the id was present before the save. -/
theorem find?_map_putStudent (l : List Student) (s1 : Student) (sid : Nat)
    (h : s1.id = sid) :
    (l.map (fun t => if t.id == s1.id then s1 else t)).find? (fun x => x.id == sid) =
      (l.find? (fun x => x.id == sid)).map (fun _ => s1) := by
  induction l with
  | nil => rfl
  | cons t l ih =>
    by_cases ht : (t.id == sid) = true
    · have ht1 : (t.id == s1.id) = true := by rw [h]; exact ht
      have hp : (s1.id == sid) = true := by simp [h]
      simp only [List.map_cons, if_pos ht1, List.find?_cons, hp, ht]
      rfl
    · have ht1 : (t.id == s1.id) = false := by rw [h]; simpa using ht
      have ht2 : (t.id == sid) = false := by simpa using ht
      simp only [List.map_cons, ht1, Bool.false_eq_true, if_false,
        List.find?_cons, ht2, ih]

/-- `findStudent` after `putStudent` of a document with the looked-up id. -/
theorem findStudent_putStudent {db : DB} {sid : Nat} {s : Student} (s1 : Student)
    (hs : findStudent db sid = some s) (h1 : s1.id = sid) :
    findStudent (putStudent db s1) sid = some s1 := by
  unfold findStudent at hs ⊢
  show (db.students.map (fun t => if t.id == s1.id then s1 else t)).find?
      (fun x => x.id == sid) = some s1
  rw [find?_map_putStudent db.students s1 sid h1, hs]
  rfl

/-- C9 counterexample: student 1 of `c7db` holds `coinBalance = 100`; the
`updateStudent` operation of this engine, given body `coinBalance = 0`,
succeeds and stores 0 — a strict decrease, so `coinBalance` is not
monotonically non-decreasing under every operation of the engine. -/
theorem C9_coin_decrease_counterexample :
    (findStudent c7db 1).map (fun s => s.coinBalance) = some 100 ∧
    okStudentCoin (updateStudent c7db 1 (some 0) none 0) 1 = some 0 ∧
    ((0 : Int) < 100) := by
  decide

/-- Persisting a student with a non-negative coin balance keeps every stored
coin balance non-negative. -/
theorem nonneg_coins_putStudent (db : DB) (s1 : Student)
    (hdb : ∀ s ∈ db.students, 0 ≤ s.coinBalance) (h1 : 0 ≤ s1.coinBalance) :
    ∀ s ∈ (putStudent db s1).students, 0 ≤ s.coinBalance := by
  intro x hx
  simp only [putStudent, List.mem_map] at hx
  obtain ⟨t, ht, hxt⟩ := hx
  by_cases h : (t.id == s1.id) = true
  · rw [if_pos h] at hxt
    exact hxt ▸ h1
  · rw [if_neg h] at hxt
    exact hxt ▸ hdb t ht

/-- C9 (amended): `rewardStudentCoins` adds a positive integer amount — it
strictly increases `coinBalance` and rejects non-positive amounts — but the
engine is not monotone: `updateStudent` stores any supplied non-negative
`coinBalance` value, which may be lower than the current one.  `coinBalance`
still always remains non-negative: a negative request body is rejected with
the 400 `invalidCoinBalance` outcome before any write, and both operations
preserve non-negativity of every stored coin balance. -/
theorem C9_amended_coin_monotonicity :
    (∀ (db : DB) (sid : Nat) (amount : Int) (s : Student),
      0 < amount → findStudent db sid = some s →
      ∃ db1, rewardStudentCoins db sid amount = RewardResult.ok db1 ∧
        (findStudent db1 sid).map (fun x => x.coinBalance) =
          some (s.coinBalance + amount) ∧
        s.coinBalance < s.coinBalance + amount) ∧
    (∀ (db : DB) (sid : Nat) (amount : Int), amount ≤ 0 →
      rewardStudentCoins db sid amount = RewardResult.invalidAmount) ∧
    (∀ (db : DB) (sid : Nat) (c now : Int) (s : Student),
      0 ≤ c → findStudent db sid = some s →
      okStudentCoin (updateStudent db sid (some c) none now) sid = some c) ∧
    (∀ (db : DB) (sid : Nat) (c : Int) (gr : Option (List Nat)) (now : Int),
      c < 0 →
      updateStudent db sid (some c) gr now = UpdateOutcome.invalidCoinBalance) ∧
    (∀ db : DB, (∀ s ∈ db.students, 0 ≤ s.coinBalance) →
      (∀ (sid : Nat) (amount : Int) (db1 : DB),
        rewardStudentCoins db sid amount = RewardResult.ok db1 →
        ∀ s ∈ db1.students, 0 ≤ s.coinBalance) ∧
      (∀ (sid : Nat) (coin : Option Int) (gr : Option (List Nat)) (now : Int) (db1 : DB),
        updateStudent db sid coin gr now = UpdateOutcome.ok db1 →
        ∀ s ∈ db1.students, 0 ≤ s.coinBalance)) := by
  refine ⟨?_, ?_, ?_, ?_, ?_⟩
  · intro db sid amount s hpos hs
    have hid : s.id = sid := findStudent_id hs
    simp only [rewardStudentCoins, hs]
    rw [if_neg (by omega)]
    refine ⟨_, rfl, ?_, by omega⟩
    rw [findStudent_putStudent
      (recomputeGroupAttached { s with coinBalance := s.coinBalance + amount }) hs hid]
    rfl
  · intro db sid amount hle
    simp only [rewardStudentCoins]
    rw [if_pos hle]
  · intro db sid c now s hc hs
    have hid : s.id = sid := findStudent_id hs
    have hneg : decide (c < 0) = false := by
      simp only [decide_eq_false_iff_not]
      omega
    simp only [updateStudent, applyStudentUpdate, hs]
    rw [show (Option.map (fun x => decide (x < 0)) (some c)).getD false = false from
      by simpa using hneg]
    simp only [Bool.false_eq_true, if_false, okStudentCoin, Option.getD_some]
    rw [findStudent_putStudent
      (recomputeGroupAttached { s with coinBalance := c }) hs hid]
    rfl
  · intro db sid c gr now hc
    have hcond : ((Option.map (fun x => decide (x < 0)) (some c)).getD false) = true := by
      simpa using hc
    simp only [updateStudent]
    rw [if_pos hcond]
  · intro db hnn
    constructor
    · intro sid amount db1 heq
      by_cases ha : amount ≤ 0
      · simp only [rewardStudentCoins] at heq
        rw [if_pos ha] at heq
        cases heq
      · simp only [rewardStudentCoins] at heq
        rw [if_neg ha] at heq
        cases hs : findStudent db sid with
        | none => rw [hs] at heq; cases heq
        | some s =>
          rw [hs] at heq
          injection heq with h1
          subst h1
          have hsmem := hnn s (List.mem_of_find?_eq_some hs)
          apply nonneg_coins_putStudent db _ hnn
          show 0 ≤ s.coinBalance + amount
          omega
    · intro sid coin gr now db1 heq
      simp only [updateStudent] at heq
      split at heq
      · cases heq
      rename_i hcond
      have hc0 : ∀ c0 : Int, coin = some c0 → 0 ≤ c0 := by
        intro c0 hco
        subst hco
        have h1 : ¬(decide (c0 < 0) = true) := by simpa using hcond
        have h2 : ¬(c0 < 0) := by simpa using h1
        omega
      have happly : ∀ gids : Option (List Nat),
          applyStudentUpdate db sid coin gids now = UpdateOutcome.ok db1 →
          ∀ s ∈ db1.students, 0 ≤ s.coinBalance := by
        intro gids h
        cases hs : findStudent db sid with
        | none => simp only [applyStudentUpdate, hs] at h; cases h
        | some s =>
          simp only [applyStudentUpdate, hs] at h
          have hbase : 0 ≤ coin.getD s.coinBalance := by
            cases hco : coin with
            | none => exact hnn s (List.mem_of_find?_eq_some hs)
            | some c0 => simpa using hc0 c0 hco
          cases gids with
          | none =>
            injection h with h1
            subst h1
            exact nonneg_coins_putStudent db _ hnn hbase
          | some gl =>
            injection h with h1
            subst h1
            intro x hx
            exact nonneg_coins_putStudent db _ hnn hbase x hx
      split at heq
      · split at heq
        · cases heq
        split at heq
        · cases heq
        exact happly _ heq
      · exact happly _ heq

/-- C9 amended witness: on `c7db` (student 1, coin balance 100), a reward of
50 yields balance 150, a reward of 0 is rejected, an update supplying 0
stores 0 — below the previous 100 —, an update supplying −5 is rejected with
the 400 `invalidCoinBalance` outcome, and both the reward and the update
leave every stored coin balance non-negative. -/
theorem C9_amended_coin_monotonicity_witness :
    (∃ db1, rewardStudentCoins c7db 1 50 = RewardResult.ok db1 ∧
      (findStudent db1 1).map (fun x => x.coinBalance) =
        some (({ mkStudent 1 [] with coinBalance := 100 } : Student).coinBalance + 50) ∧
      ({ mkStudent 1 [] with coinBalance := 100 } : Student).coinBalance <
        ({ mkStudent 1 [] with coinBalance := 100 } : Student).coinBalance + 50) ∧
    rewardStudentCoins c7db 1 0 = RewardResult.invalidAmount ∧
    okStudentCoin (updateStudent c7db 1 (some 0) none 0) 1 = some 0 ∧
    updateStudent c7db 1 (some (-5)) none 0 = UpdateOutcome.invalidCoinBalance ∧
    (∀ s ∈ c9dbRw.students, 0 ≤ s.coinBalance) ∧
    (∀ s ∈ c2dbUpd.students, 0 ≤ s.coinBalance) :=
  ⟨(C9_amended_coin_monotonicity).1 c7db 1 50
      ({ mkStudent 1 [] with coinBalance := 100 }) (by decide) (by decide),
    (C9_amended_coin_monotonicity).2.1 c7db 1 0 (by decide),
    (C9_amended_coin_monotonicity).2.2.1 c7db 1 0 0
      ({ mkStudent 1 [] with coinBalance := 100 }) (by decide) (by decide),
    (C9_amended_coin_monotonicity).2.2.2.1 c7db 1 (-5) none 0 (by decide),
    ((C9_amended_coin_monotonicity).2.2.2.2 c7db (by decide)).1 1 50 c9dbRw
      (by decide),
    ((C9_amended_coin_monotonicity).2.2.2.2 c7db (by decide)).2 1 (some 5)
      (some [3]) 0 c2dbUpd (by decide)⟩

/-- The payload written for a record matches its own (student, day) key. -/
theorem attMatches_attPayload (date : Int) (mb : Option Nat) (r : AttRecord) :
    attMatches r.student (toDateKey date) (attPayload date mb r) = true := by
  simp [attMatches, attPayload]

/-- `countMatches` over a cons cell. -/
theorem countMatches_cons (x : AttendanceEntry) (l : List AttendanceEntry)
    (sid : Nat) (dk : Int) :
    countMatches (x :: l) sid dk =
      if attMatches sid dk x = true then countMatches l sid dk + 1
      else countMatches l sid dk := by
  unfold countMatches
  rw [List.filter_cons]
  split
  · simp
  · rfl

/-- After upserting a payload, the first entry for its (student, day) key is
that payload. -/
theorem find?_upsertOne_self (p : AttendanceEntry) (dk : Int)
    (hk : toDateKey p.date = dk) :
    ∀ l, (upsertOneAttendance p dk l).find? (attMatches p.student dk) = some p := by
  have hp : attMatches p.student dk p = true := by simp [attMatches, hk]
  intro l
  induction l with
  | nil =>
    simp only [upsertOneAttendance, List.find?_cons, hp]
  | cons e l ih =>
    by_cases he : attMatches p.student dk e = true
    · simp only [upsertOneAttendance, he, if_true, List.find?_cons, hp]
    · simp only [upsertOneAttendance, he, Bool.false_eq_true, if_false,
        List.find?_cons]
      exact ih

/-- Upserting a payload that is already the first entry for its key is a
no-op. -/
theorem upsertOne_of_find?_self (p : AttendanceEntry) (dk : Int) :
    ∀ l, l.find? (attMatches p.student dk) = some p → upsertOneAttendance p dk l = l := by
  intro l
  induction l with
  | nil => intro h; cases h
  | cons e l ih =>
    intro h
    by_cases he : attMatches p.student dk e = true
    · simp only [List.find?_cons, he] at h
      injection h with h1
      subst h1
      simp only [upsertOneAttendance, he, if_true]
    · simp only [List.find?_cons] at h
      rw [show (attMatches p.student dk e) = false by simpa using he] at h
      simp only [upsertOneAttendance, he, Bool.false_eq_true, if_false]
      rw [ih h]

/-- Upserting a payload of a different student never changes what `find?`
sees for a (student, day) key. -/
theorem find?_upsertOne_other (q : AttendanceEntry) (dk' : Int) (sid : Nat)
    (dk : Int) (hq : q.student ≠ sid) :
    ∀ l, (upsertOneAttendance q dk' l).find? (attMatches sid dk) =
      l.find? (attMatches sid dk) := by
  have hqf : attMatches sid dk q = false := by
    simp [attMatches]
    intro h
    exact absurd h hq
  intro l
  induction l with
  | nil =>
    simp only [upsertOneAttendance, List.find?_cons, hqf, List.find?_nil]
  | cons e l ih =>
    by_cases he : attMatches q.student dk' e = true
    · have hes : e.student = q.student := by
        have := he
        simp only [attMatches, Bool.and_eq_true, beq_iff_eq] at this
        exact this.1
      have hef : attMatches sid dk e = false := by
        simp [attMatches, hes]
        intro h
        exact absurd h hq
      simp only [upsertOneAttendance, he, if_true, List.find?_cons, hqf, hef]
    · simp only [upsertOneAttendance, he, Bool.false_eq_true, if_false,
        List.find?_cons]
      cases hef : attMatches sid dk e
      · exact ih
      · rfl

/-- Upserting a payload leaves exactly `max 1 (previous count)` entries for
its own (student, day) key. -/
theorem countMatches_upsertOne_self (p : AttendanceEntry) (dk : Int)
    (hk : toDateKey p.date = dk) :
    ∀ l, countMatches (upsertOneAttendance p dk l) p.student dk =
      max 1 (countMatches l p.student dk) := by
  have hp : attMatches p.student dk p = true := by simp [attMatches, hk]
  intro l
  induction l with
  | nil =>
    simp only [upsertOneAttendance, countMatches_cons, hp, if_true]
    rfl
  | cons e l ih =>
    by_cases he : attMatches p.student dk e = true
    · simp only [upsertOneAttendance, he, if_true, countMatches_cons, hp]
      omega
    · simp only [upsertOneAttendance, he, Bool.false_eq_true, if_false,
        countMatches_cons, ih]

/-- Upserting a payload does not change the count of any other
(student, day) key. -/
theorem countMatches_upsertOne_other (p : AttendanceEntry) (dk : Int)
    (sid : Nat) (dk2 : Int) (hk : toDateKey p.date = dk)
    (hne : ¬(sid = p.student ∧ dk2 = dk)) :
    ∀ l, countMatches (upsertOneAttendance p dk l) sid dk2 =
      countMatches l sid dk2 := by
  have hpf : attMatches sid dk2 p = false := by
    simp only [attMatches, hk]
    rw [Bool.and_eq_false_iff]
    by_cases h1 : p.student = sid
    · right
      rw [beq_eq_false_iff_ne]
      intro h2
      exact hne ⟨h1.symm, h2.symm⟩
    · left
      rw [beq_eq_false_iff_ne]
      exact h1
  intro l
  induction l with
  | nil =>
    simp only [upsertOneAttendance, countMatches_cons, hpf, Bool.false_eq_true,
      if_false]
  | cons e l ih =>
    by_cases he : attMatches p.student dk e = true
    · have heb : e.student = p.student ∧ toDateKey e.date = dk := by
        have := he
        simp only [attMatches, Bool.and_eq_true, beq_iff_eq] at this
        exact this
      have hef : attMatches sid dk2 e = false := by
        simp only [attMatches, heb.1, heb.2]
        rw [Bool.and_eq_false_iff]
        by_cases h1 : p.student = sid
        · right
          rw [beq_eq_false_iff_ne]
          intro h2
          exact hne ⟨h1.symm, h2.symm⟩
        · left
          rw [beq_eq_false_iff_ne]
          exact h1
      simp only [upsertOneAttendance, he, if_true, countMatches_cons, hpf, hef,
        Bool.false_eq_true, if_false]
    · simp only [upsertOneAttendance, he, Bool.false_eq_true, if_false,
        countMatches_cons, ih]

/-- Upserting preserves the at-most-one-entry-per-key invariant. -/
theorem countMatches_upsertOne_le_one (p : AttendanceEntry) (dk : Int)
    (hk : toDateKey p.date = dk) (l : List AttendanceEntry)
    (hinv : ∀ sid dk2, countMatches l sid dk2 ≤ 1) :
    ∀ sid dk2, countMatches (upsertOneAttendance p dk l) sid dk2 ≤ 1 := by
  intro sid dk2
  by_cases hc : sid = p.student ∧ dk2 = dk
  · obtain ⟨h1, h2⟩ := hc
    rw [h1, h2, countMatches_upsertOne_self p dk hk l]
    have := hinv p.student dk
    omega
  · rw [countMatches_upsertOne_other p dk sid dk2 hk hc l]
    exact hinv sid dk2

/-- Unfolding the upsert loop one record at a time. -/
theorem applyAttendanceRecords_cons (att : List AttendanceEntry) (date : Int)
    (mb : Option Nat) (r : AttRecord) (rs : List AttRecord) :
    applyAttendanceRecords att date mb (r :: rs) =
      applyAttendanceRecords
        (upsertOneAttendance (attPayload date mb r) (toDateKey date) att) date mb rs := rfl

/-- The empty batch leaves the log unchanged. -/
theorem applyAttendanceRecords_nil (att : List AttendanceEntry) (date : Int)
    (mb : Option Nat) : applyAttendanceRecords att date mb [] = att := rfl

/-- The whole upsert loop preserves the at-most-one-entry-per-key invariant. -/
theorem applyRecords_count_le_one (date : Int) (mb : Option Nat) :
    ∀ (rs : List AttRecord) (att : List AttendanceEntry),
      (∀ sid dk2, countMatches att sid dk2 ≤ 1) →
      ∀ sid dk2, countMatches (applyAttendanceRecords att date mb rs) sid dk2 ≤ 1 := by
  intro rs
  induction rs with
  | nil => intro att h; exact h
  | cons r rs ih =>
    intro att h
    rw [applyAttendanceRecords_cons]
    exact ih _ (countMatches_upsertOne_le_one (attPayload date mb r) (toDateKey date)
      rfl att h)

/-- Records of other students never change the count of a (student, day)
key. -/
theorem applyRecords_count_frame (date : Int) (mb : Option Nat) :
    ∀ (rs : List AttRecord) (att : List AttendanceEntry) (sid : Nat) (dk2 : Int),
      (∀ r ∈ rs, r.student ≠ sid) →
      countMatches (applyAttendanceRecords att date mb rs) sid dk2 =
        countMatches att sid dk2 := by
  intro rs
  induction rs with
  | nil => intro att sid dk2 _; rfl
  | cons r rs ih =>
    intro att sid dk2 h
    rw [applyAttendanceRecords_cons,
      ih _ sid dk2 (fun x hx => h x (List.mem_cons_of_mem r hx)),
      countMatches_upsertOne_other (attPayload date mb r) (toDateKey date) sid dk2 rfl]
    intro hcon
    exact h r (List.mem_cons_self r rs) (by simpa [attPayload] using hcon.1.symm)

/-- Records of other students never change what `find?` sees for a
(student, day) key. -/
theorem applyRecords_find_frame (date : Int) (mb : Option Nat) :
    ∀ (rs : List AttRecord) (att : List AttendanceEntry) (sid : Nat) (dk : Int),
      (∀ r ∈ rs, r.student ≠ sid) →
      (applyAttendanceRecords att date mb rs).find? (attMatches sid dk) =
        att.find? (attMatches sid dk) := by
  intro rs
  induction rs with
  | nil => intro att sid dk _; rfl
  | cons r rs ih =>
    intro att sid dk h
    rw [applyAttendanceRecords_cons,
      ih _ sid dk (fun x hx => h x (List.mem_cons_of_mem r hx)),
      find?_upsertOne_other (attPayload date mb r) (toDateKey date) sid dk
        (h r (List.mem_cons_self r rs)) att]

/-- After the upsert loop over a duplicate-free batch, the first entry for
each submitted (student, day) key is exactly the submitted payload. -/
theorem applyRecords_find (date : Int) (mb : Option Nat) :
    ∀ (rs : List AttRecord) (att : List AttendanceEntry),
      (rs.map (fun r => r.student)).Nodup →
      ∀ r ∈ rs, (applyAttendanceRecords att date mb rs).find?
        (attMatches r.student (toDateKey date)) = some (attPayload date mb r) := by
  intro rs
  induction rs with
  | nil => intro att _ r hr; cases hr
  | cons r0 rs ih =>
    intro att hnd r hr
    have hnd' := hnd
    rw [List.map_cons, List.nodup_cons] at hnd'
    rcases List.mem_cons.mp hr with hr0 | hrs
    · subst hr0
      rw [applyAttendanceRecords_cons,
        applyRecords_find_frame date mb rs _ r.student (toDateKey date)
          (fun x hx hxe => hnd'.1 (hxe ▸ List.mem_map_of_mem (fun y => y.student) hx))]
      exact find?_upsertOne_self (attPayload date mb r) (toDateKey date) rfl att
    · rw [applyAttendanceRecords_cons]
      exact ih _ hnd'.2 r hrs

/-- After the upsert loop over a duplicate-free batch on a log satisfying the
invariant, each submitted (student, day) key has exactly one entry. -/
theorem applyRecords_count_eq_one (date : Int) (mb : Option Nat) :
    ∀ (rs : List AttRecord) (att : List AttendanceEntry),
      (rs.map (fun r => r.student)).Nodup →
      (∀ sid dk2, countMatches att sid dk2 ≤ 1) →
      ∀ r ∈ rs, countMatches (applyAttendanceRecords att date mb rs) r.student
        (toDateKey date) = 1 := by
  intro rs
  induction rs with
  | nil => intro att _ _ r hr; cases hr
  | cons r0 rs ih =>
    intro att hnd hinv r hr
    have hnd' := hnd
    rw [List.map_cons, List.nodup_cons] at hnd'
    rcases List.mem_cons.mp hr with hr0 | hrs
    · subst hr0
      rw [applyAttendanceRecords_cons,
        applyRecords_count_frame date mb rs _ r.student (toDateKey date)
          (fun x hx hxe => hnd'.1 (hxe ▸ List.mem_map_of_mem (fun y => y.student) hx))]
      have hmax := countMatches_upsertOne_self (attPayload date mb r) (toDateKey date) rfl att
      have hb := hinv r.student (toDateKey date)
      rw [show (attPayload date mb r).student = r.student from rfl] at hmax
      rw [hmax, Nat.max_eq_left hb]
    · rw [applyAttendanceRecords_cons]
      exact ih _ hnd'.2
        (countMatches_upsertOne_le_one (attPayload date mb r0) (toDateKey date)
          rfl att hinv) r hrs

/-- Re-running the upsert loop on a log that already stores each submitted
payload as the first entry of its key is the identity. -/
theorem applyRecords_idem_of_settled (date : Int) (mb : Option Nat) :
    ∀ (rs : List AttRecord) (l : List AttendanceEntry),
      (∀ r ∈ rs, l.find? (attMatches r.student (toDateKey date)) =
        some (attPayload date mb r)) →
      applyAttendanceRecords l date mb rs = l := by
  intro rs
  induction rs with
  | nil => intro l _; rfl
  | cons r0 rs ih =>
    intro l h
    rw [applyAttendanceRecords_cons,
      upsertOne_of_find?_self (attPayload date mb r0) (toDateKey date) l
        (h r0 (List.mem_cons_self r0 rs))]
    exact ih l (fun x hx => h x (List.mem_cons_of_mem r0 hx))

/-- `find?` by id over a collection whose matching documents were modified by
an id-preserving function. -/
theorem find?_map_modifyGroup (l : List Group) (gid : Nat) (f : Group → Group)
    (hf : ∀ x, (f x).id = x.id) :
    (l.map (fun x => if x.id == gid then f x else x)).find? (fun x => x.id == gid) =
      (l.find? (fun x => x.id == gid)).map f := by
  induction l with
  | nil => rfl
  | cons t l ih =>
    by_cases ht : (t.id == gid) = true
    · have hft : ((f t).id == gid) = true := by rw [hf t]; exact ht
      simp only [List.map_cons, ht, if_true, List.find?_cons, hft]
      rfl
    · have ht2 : (t.id == gid) = false := by simpa using ht
      simp only [List.map_cons, ht2, Bool.false_eq_true, if_false, List.find?_cons, ih]

/-- Setting the same attendance log twice is the same as setting it once. -/
theorem map_setAttendance_idem (l : List Group) (gid : Nat)
    (a : List AttendanceEntry) :
    (l.map (fun x => if x.id == gid then { x with attendance := a } else x)).map
      (fun x => if x.id == gid then { x with attendance := a } else x) =
      l.map (fun x => if x.id == gid then { x with attendance := a } else x) := by
  rw [List.map_map]
  apply List.map_congr_left
  intro x _
  by_cases hx : (x.id == gid) = true
  · simp only [Function.comp_apply, hx, if_true]
  · have hx2 : (x.id == gid) = false := by simpa using hx
    simp only [Function.comp_apply, hx2, Bool.false_eq_true, if_false]

/-- A list whose `dedup` has full length is duplicate-free. -/
theorem nodup_of_dedup_length_eq {α : Type} [DecidableEq α] (l : List α)
    (h : l.dedup.length = l.length) : l.Nodup := by
  have := (List.dedup_sublist l).eq_of_length h
  exact this ▸ List.nodup_dedup l

/-- C3: the attendance upsert is idempotent — if a submission of
`(groupId, date, records)` succeeds on a log with at most one entry per
(student, UTC-day) pair, resubmitting the identical batch returns the same
database unchanged, and the resulting log holds exactly one entry per
submitted student for that day, that entry being the submitted payload
(status/note/markedBy of the latest submission). -/
theorem C3_attendance_upsert_idempotent (db : DB) (groupId : Nat) (date : Int)
    (records : List AttRecord) (mb : Option Nat) (group : Group) (db1 : DB)
    (hg : findGroup db groupId = some group)
    (hinv : ∀ sid dk, countMatches group.attendance sid dk ≤ 1)
    (hok : upsertGroupAttendance db groupId date records mb = AttendanceResult.ok db1) :
    upsertGroupAttendance db1 groupId date records mb = AttendanceResult.ok db1 ∧
    (∀ g1, findGroup db1 groupId = some g1 →
      ∀ r ∈ records,
        countMatches g1.attendance r.student (toDateKey date) = 1 ∧
        g1.attendance.find? (attMatches r.student (toDateKey date)) =
          some (attPayload date mb r)) := by
  simp only [upsertGroupAttendance, hg] at hok
  by_cases hdup : (((records.map (fun r => r.student)).dedup.length !=
      (records.map (fun r => r.student)).length) = true)
  · rw [if_pos hdup] at hok; cases hok
  rw [if_neg hdup] at hok
  by_cases hmem : (((db.students.filter (fun s =>
      (records.map (fun r => r.student)).contains s.id &&
      s.groups.any (fun m => m.group == groupId && m.status == MStatus.active))).length !=
      (records.map (fun r => r.student)).length) = true)
  · rw [if_pos hmem] at hok; cases hok
  rw [if_neg hmem] at hok
  injection hok with hdb1
  subst hdb1
  have hnodup : (records.map (fun r => r.student)).Nodup := by
    have h2 : (((records.map (fun r => r.student)).dedup.length !=
        (records.map (fun r => r.student)).length)) = false := by
      simpa using hdup
    exact nodup_of_dedup_length_eq _ (by simpa using h2)
  have hfind1 : findGroup
      { db with groups := db.groups.map (fun g => if g.id == groupId then
          { g with attendance := applyAttendanceRecords group.attendance date mb records }
        else g) } groupId =
      some { group with attendance :=
        applyAttendanceRecords group.attendance date mb records } := by
    show (db.groups.map (fun g => if g.id == groupId then
        { g with attendance := applyAttendanceRecords group.attendance date mb records }
      else g)).find? (fun g => g.id == groupId) = _
    rw [find?_map_modifyGroup db.groups groupId
      (fun x => { x with attendance :=
        applyAttendanceRecords group.attendance date mb records }) (fun x => rfl)]
    rw [show (db.groups.find? (fun g => g.id == groupId)) = some group from hg]
    rfl
  have hsettle := applyRecords_find date mb records group.attendance hnodup
  have hidem := applyRecords_idem_of_settled date mb records
    (applyAttendanceRecords group.attendance date mb records) hsettle
  constructor
  · simp only [upsertGroupAttendance, hfind1]
    rw [if_neg hdup]
    show (if _ = true then _ else AttendanceResult.ok _) = _
    rw [if_neg hmem]
    rw [hidem]
    rw [map_setAttendance_idem db.groups groupId
      (applyAttendanceRecords group.attendance date mb records)]
  · intro g1 hgg1
    rw [hfind1] at hgg1
    injection hgg1 with hgg1
    subst hgg1
    intro r hr
    exact ⟨applyRecords_count_eq_one date mb records group.attendance hnodup hinv r hr,
      applyRecords_find date mb records group.attendance hnodup r hr⟩

/-- C3 witness: submitting the one-record batch for student 20 on `c3db`
produces `c3db1`, resubmitting the identical batch returns `c3db1` unchanged
(via the theorem, with the empty initial log satisfying the invariant), and
the stored log holds exactly the submitted entry. -/
theorem C3_attendance_upsert_idempotent_witness :
    upsertGroupAttendance c3db 1 432000123 c3records (some 7) =
      AttendanceResult.ok c3db1 ∧
    upsertGroupAttendance c3db1 1 432000123 c3records (some 7) =
      AttendanceResult.ok c3db1 ∧
    (findGroup c3db1 1).map (fun g => g.attendance) =
      some [AttendanceEntry.mk 20 432000123 AStatus.present (some "ok") (some 7)] :=
  ⟨by decide,
    (C3_attendance_upsert_idempotent c3db 1 432000123 c3records (some 7)
      (mkGroup 1 GStatus.active 10) c3db1 (by decide)
      (fun sid dk => Nat.zero_le 1) (by decide)).1,
    by decide⟩

end ZuhrStar
